import Mathlib

/-!
Shallow embedding of the RustSpeedTest scanner (TCP latency scanner, HTTP
route checker, download speed meter) together with proofs about its result
ordering, classification, filtering and driver-loop behaviour.

Conventions of the embedding:
* `IpAddr` is a bare `Nat` (only equality and distinctness of addresses matter).
* durations are nanosecond counts (`Nat`); `Duration::as_millis` is division
  by 1000000, `Duration::as_nanos` is the identity.
* network outcomes (TCP connects, HTTP probes, body chunks) are passed in as
  explicit outcome lists, one element per attempt, since the network is an
  external oracle.
* fallible code returns `Except`; a Rust `panic!` is an `Except.error`.
-/

deriving instance DecidableEq for Except

namespace RustSpeedTest

/-- IP addresses: only identity matters for the verified properties. -/
abbrev IpAddr := Nat

/-! ## Byte-slice trimming (src/scan_iouring/http.rs, `ScanHttp::trim_ascii_whitespace`) -/

/-- Rust `u8::is_ascii_whitespace`: space, tab, newline, form feed, carriage return. -/
def isAsciiWhitespace (b : Nat) : Bool :=
  b == 32 || b == 9 || b == 10 || b == 12 || b == 13

/-- Embedding of `ScanHttp::trim_ascii_whitespace`.  The source computes
`start` with `iter().rposition(|&b| !b.is_ascii_whitespace()).unwrap_or(0)`
(the index, counted from the front, of the LAST non-whitespace byte) and
`end` with `iter().position(..).unwrap_or(len)` (the index of the FIRST
non-whitespace byte), then returns `&[]` if `start >= end` and
`&bytes[start..end]` otherwise. -/
def trim_ascii_whitespace (bytes : List Nat) : List Nat :=
  let start :=
    match bytes.reverse.findIdx? (fun b => ! isAsciiWhitespace b) with
    | some i => bytes.length - 1 - i
    | none => 0
  let stop :=
    match bytes.findIdx? (fun b => ! isAsciiWhitespace b) with
    | some i => i
    | none => bytes.length
  if start ≥ stop then [] else (bytes.drop start).take (stop - start)

/-! ## Route check results (src/routes/mod.rs) -/

/-- `RouteStatus` from src/routes/mod.rs. -/
inductive RouteStatus where
  | Normal
  | NoLocation
  | DiffLocation
deriving DecidableEq, Repr

/-- `CFCDNCheckResult` from src/routes/mod.rs. -/
structure CFCDNCheckResult where
  ip : IpAddr
  route_status : RouteStatus
  location_code : String
deriving DecidableEq, Repr

/-- Embedding of `impl Ord for CFCDNCheckResult` (src/routes/mod.rs lines
305-321): `Less` if the receiver is `Normal`; else `Greater` if the argument
is `Normal`; else `Less` whenever the receiver is `DiffLocation` or
`NoLocation` (which is every remaining case). -/
def cfcdnCmp (a b : CFCDNCheckResult) : Ordering :=
  if a.route_status = RouteStatus.Normal then Ordering.lt
  else if b.route_status = RouteStatus.Normal then Ordering.gt
  else if a.route_status = RouteStatus.DiffLocation ∨ a.route_status = RouteStatus.NoLocation then
    Ordering.lt
  else Ordering.gt

/-! ## Latency records (src/scanner/mod.rs) -/

/-- `Delay` from src/scanner/mod.rs: `consume` is the stored mean connect
duration in nanoseconds, `success` the number of successful attempts. -/
structure Delay where
  ip : IpAddr
  consume : Nat
  success : Nat
deriving DecidableEq, Repr

/-- Embedding of `impl Ord for Delay` (src/scanner/mod.rs lines 204-217):
`Greater` if the receiver has `success == 0`; else `Less` if the receiver
has strictly more successes; else compare `consume / success` of the two
records (the stored mean divided once more by the success count). -/
def delayCmp (a b : Delay) : Ordering :=
  if a.success = 0 then Ordering.gt
  else if b.success < a.success then Ordering.lt
  else compare (a.consume / a.success) (b.consume / b.success)

/-- The boolean comparator Rust's sort derives from an `Ord`
implementation: `is_less(a, b) := a.cmp(b) == Less`. -/
def delayLt (a b : Delay) : Bool := delayCmp a b == Ordering.lt

/-- One step of the insertion sort Rust's stable `slice::sort` runs on
short slices (std's `insert_head`): insert `x` into the already sorted
list, letting `x` move past every element that is less than `x` and
placing it in front of the first element that is not. -/
def insertHead (isLess : α → α → Bool) (x : α) : List α → List α
  | [] => [x]
  | h :: t => if isLess h x then h :: insertHead isLess x t else x :: h :: t

/-- Rust stable `slice::sort` on a short slice (at most 20 elements, the
regime of every vector in the repository's own tests): the loop
`for i in (0..len-1).rev()` inserts each element, right to left, into the
sorted suffix via `insert_head`, which is the right fold of `insertHead`. -/
def sortBy (isLess : α → α → Bool) (l : List α) : List α :=
  l.foldr (insertHead isLess) []

/-- `delays.sort()` in src/main.rs `run_scanner`: Rust's stable sort driven
by `impl Ord for Delay`.  On the four-record vector of the repository's
`test_delay_sort` this model produces exactly the order the unit test
asserts. -/
def sortDelays (l : List Delay) : List Delay := sortBy delayLt l

/-- The ordering property claimed for the latency sort: `success = 0`
records all placed after `success ≥ 1` records, and the stored mean
(`consume`) non-decreasing among the `success ≥ 1` records. -/
def delaySortClaim (l : List Delay) : Prop :=
  List.Pairwise (fun a b => a.success = 0 → b.success = 0) (sortDelays l) ∧
  List.Pairwise (fun a b => a.success ≠ 0 → b.success ≠ 0 → a.consume ≤ b.consume) (sortDelays l)

/-! ## Route classification (src/routes/mod.rs, `check_cloudflare_routes`)

The per-attempt probe `get_location_code` is an external network operation;
an attempt either yields a location code (`some code`, always the three
final bytes of a `CF-RAY` header line, hence nonempty) or fails (`none`).
`check_cloudflare_routes` is embedded as a function of the list of per-try
outcomes, one element per configured try (`tries_per_ip` entries). -/

/-- First loop of `check_cloudflare_routes`: walk the outcomes until a code
is obtained (`location_code = code; break`), returning the code found
(`""`, the initial value, when every try fails) and the outcomes of the
remaining tries. -/
def firstLocationCode : List (Option String) → String × List (Option String)
  | [] => ("", [])
  | none :: rest => firstLocationCode rest
  | some code :: rest => (code, rest)

/-- Second loop of `check_cloudflare_routes`: scan the remaining tries; any
obtained code differing from the first one means `DiffLocation`. -/
def anyDifferentCode (first : String) : List (Option String) → Bool
  | [] => false
  | none :: rest => anyDifferentCode first rest
  | some code :: rest =>
    if code ≠ first then true else anyDifferentCode first rest

/-- Embedding of `CloudflareChecker::check_cloudflare_routes`
(src/routes/mod.rs lines 131-182) over the per-try outcome list. -/
def check_cloudflare_routes (ip : IpAddr) (outcomes : List (Option String)) :
    CFCDNCheckResult :=
  let p := firstLocationCode outcomes
  if p.1 = "" then
    { ip := ip, route_status := RouteStatus.NoLocation, location_code := "" }
  else if anyDifferentCode p.1 p.2 then
    { ip := ip, route_status := RouteStatus.DiffLocation, location_code := p.1 }
  else
    { ip := ip, route_status := RouteStatus.Normal, location_code := p.1 }

/-! ## Download meter (src/download/mod.rs) -/

/-- `Speed` from src/download/mod.rs: bytes downloaded and elapsed
nanoseconds. -/
structure Speed where
  ip : IpAddr
  total_download : Nat
  consume : Nat
deriving DecidableEq, Repr

/-- The result of one `measure_download_speed` attempt: `some speed` for
`Ok(speed)`, `none` for an error. -/
abbrev AttemptResult := Option Speed

/-- The `for _ in 1..=self.tries` retry loop body: the first `Ok` among the
attempt outcomes of one IP is kept, later attempts are not made. -/
def firstOk : List AttemptResult → Option Speed
  | [] => none
  | some s :: _ => some s
  | none :: rest => firstOk rest

/-- The IP loop of `Downloader::run` (src/download/mod.rs lines 58-69):
`speeds` and `available_count` are the accumulators; on a success the
record is pushed, the count incremented, and the whole run returns as soon
as `available_count >= min_available`. -/
def downloaderRunGo (min_available : Nat) :
    List (List AttemptResult) → List Speed → Nat → List Speed
  | [], speeds, _ => speeds
  | o :: rest, speeds, cnt =>
    match firstOk o with
    | none => downloaderRunGo min_available rest speeds cnt
    | some s =>
      if min_available ≤ cnt + 1 then speeds ++ [s]
      else downloaderRunGo min_available rest (speeds ++ [s]) (cnt + 1)

/-- Embedding of `Downloader::run` (src/download/mod.rs lines 44-72): one
outcome list per IP in order, each inner list holding that IP's `tries`
attempt outcomes. -/
def downloaderRun (outcomes : List (List AttemptResult)) (min_available : Nat) :
    List Speed :=
  downloaderRunGo min_available outcomes [] 0

/-! ## Address subsampling (src/main.rs, `parse_addresses_from_opt`) -/

/-- The sample size chosen by `parse_addresses_from_opt` (src/main.rs lines
349-353): `random_number` when `0 < random_number < uniq_ips.len()`, the
whole deduplicated count otherwise. -/
def sampleSize (random_number n : Nat) : Nat :=
  if 0 < random_number ∧ random_number < n then random_number else n

/-- Embedding of the tail of `parse_addresses_from_opt` (src/main.rs lines
355-358): `rand::seq::index::sample` is an external oracle producing index
lists; the function maps the sampled indices over the deduplicated vector.
Theorems take the documented contract of `sample` (exactly `sample_size`
distinct indices below `n`) as hypotheses on `idxs`. -/
def parse_addresses_from_opt (uniq_ips : List IpAddr) (idxs : List Nat) :
    List IpAddr :=
  idxs.map (fun i => uniq_ips.getD i 0)

/-! ## Latency filtering (src/scanner/mod.rs, `Scanner::run` result loop) -/

/-- `Duration::as_millis` of a nanosecond count. -/
def delayMillis (d : Delay) : Nat := d.consume / 1000000

/-- The filtering done by the result loop of `Scanner::run`
(src/scanner/mod.rs lines 95-117): a received record is pushed onto `res`
exactly when `delay_millis < avg_delay_upper && delay_millis > avg_delay_lower`. -/
def scannerFilter (avg_delay_upper avg_delay_lower : Nat) (delays : List Delay) :
    List Delay :=
  delays.filter (fun d => delayMillis d < avg_delay_upper && avg_delay_lower < delayMillis d)

/-! ## Substring search (models Rust `str::contains`) -/

/-- Whether `p` is an initial segment of `l`. -/
def leadsWith : List Char → List Char → Bool
  | [], _ => true
  | _ :: _, [] => false
  | p :: ps, h :: hs => p == h && leadsWith ps hs

/-- Whether `pat` occurs contiguously inside the second list. -/
def occursIn (pat : List Char) : List Char → Bool
  | [] => leadsWith pat []
  | h :: hs => leadsWith pat (h :: hs) || occursIn pat hs

/-- Rust `str::contains(pat)` on `hay`. -/
def containsSub (hay pat : String) : Bool := occursIn pat.toList hay.toList

/-- ASCII lowercasing of one character; models Rust `str::to_lowercase` on
the ASCII error messages involved. -/
def asciiLower (c : Char) : Char :=
  if 65 ≤ c.toNat ∧ c.toNat ≤ 90 then Char.ofNat (c.toNat + 32) else c

/-- ASCII lowercasing of a string. -/
def lowerString (s : String) : String := String.mk (s.toList.map asciiLower)

/-! ## Download response handling (src/download/mod.rs, `handle_response`) -/

/-- One chunk result from the body stream: `ok len` for a buffer of `len`
bytes, `err msg` for a read error carrying message `msg`. -/
inductive ChunkResult where
  | ok (len : Nat)
  | err (msg : String)
deriving DecidableEq, Repr

/-- Total number of bytes carried by the `ok` chunks of a chunk list. -/
def chunkBytes : List ChunkResult → Nat
  | [] => 0
  | ChunkResult.ok n :: rest => n + chunkBytes rest
  | ChunkResult.err _ :: rest => chunkBytes rest

/-- The `while let Some(result) = stream.next()` loop of `handle_response`:
accumulate chunk lengths; a read error whose message contains "timed out"
breaks the loop (graceful stop), any other read error aborts the attempt. -/
def handleResponseGo (ip : IpAddr) (elapsed : Nat) :
    List ChunkResult → Nat → Except String Speed
  | [], bytes => Except.ok { ip := ip, total_download := bytes, consume := elapsed }
  | ChunkResult.ok len :: rest, bytes => handleResponseGo ip elapsed rest (bytes + len)
  | ChunkResult.err msg :: _, bytes =>
    if containsSub msg "timed out" then
      Except.ok { ip := ip, total_download := bytes, consume := elapsed }
    else Except.error msg

/-- Embedding of `Downloader::handle_response` (src/download/mod.rs lines
114-150): on a success status stream the body, else fail.  `elapsed` stands
for `start_time.elapsed()` at the moment the loop exits. -/
def handle_response (status_success : Bool) (ip : IpAddr) (elapsed : Nat)
    (chunks : List ChunkResult) : Except String Speed :=
  if status_success then handleResponseGo ip elapsed chunks 0
  else Except.error "Download failed"

/-! ## TCP latency probe (src/scanner/mod.rs, `Scanner::tcp_socket`) -/

/-- One TCP connect attempt outcome: `ok elapsed` (nanoseconds) on a
connect within the timeout, `err msg` with the error's display string
otherwise. -/
inductive ConnAttempt where
  | ok (elapsed : Nat)
  | err (msg : String)
deriving DecidableEq, Repr

/-- The literal panic message of `Scanner::tcp_socket` (src/scanner/mod.rs
line 153). -/
def emfilePanicMsg : String :=
  "Too many open files. Please reduce batch size\nPlease try to reduce this value and then try to run again."

/-- The attempt loop of `tcp_socket`: successes accumulate elapsed time and
the counter; an error whose lowercased message contains "too many open
files" panics with `emfilePanicMsg`; any other error is dropped. -/
def tcpSocketGo (ip : IpAddr) : List ConnAttempt → Nat → Nat → Except String Delay
  | [], total, succ =>
    Except.ok
      { ip := ip
        consume := if succ ≠ 0 then total / succ % 2 ^ 64 else 0
        success := succ }
  | ConnAttempt.ok e :: rest, total, succ => tcpSocketGo ip rest (total + e) (succ + 1)
  | ConnAttempt.err m :: rest, total, succ =>
    if containsSub (lowerString m) "too many open files" then Except.error emfilePanicMsg
    else tcpSocketGo ip rest total succ

/-- Embedding of `Scanner::tcp_socket` (src/scanner/mod.rs lines 124-168)
over the list of per-attempt outcomes (`times` entries).  A Rust panic is
`Except.error` carrying the panic message. -/
def tcp_socket (ip : IpAddr) (attempts : List ConnAttempt) : Except String Delay :=
  tcpSocketGo ip attempts 0 0

/-! ## Concurrent probe pool driver (src/scanner/mod.rs `Scanner::run`,
src/routes/mod.rs `CloudflareChecker::check_routes`)

Both drivers share the same loop: spawn `min(total, batch_size)` probe
tasks, then `total` times receive one completed result from the channel and
spawn one new task if any input IP remains.  The asynchronous execution is
abstracted into a transition system; `inflight` counts spawned tasks whose
probe has not completed, `channel` counts completed results not yet
received by the driver. -/

/-- Driver-loop state. -/
structure PoolState where
  remaining : Nat
  inflight : Nat
  channel : Nat
  received : Nat
deriving DecidableEq, Repr

/-- The initial burst (`for _ in 0..min(total, batch_size)`) spawns
`min total batchSize` probes. -/
def initPool (total batchSize : Nat) : PoolState :=
  { remaining := total - min total batchSize
    inflight := min total batchSize
    channel := 0
    received := 0 }

/-- One scheduler step of the driver run: a probe completes and sends its
result, or the driver receives one result and (when IPs remain) spawns
exactly one new probe. -/
inductive PoolStep : PoolState → PoolState → Prop
  | complete (s : PoolState) (h : 0 < s.inflight) :
      PoolStep s ⟨s.remaining, s.inflight - 1, s.channel + 1, s.received⟩
  | recvSpawn (s : PoolState) (h : 0 < s.channel) (h2 : 0 < s.remaining) :
      PoolStep s ⟨s.remaining - 1, s.inflight + 1, s.channel - 1, s.received + 1⟩
  | recvNoSpawn (s : PoolState) (h : 0 < s.channel) (h2 : s.remaining = 0) :
      PoolStep s ⟨s.remaining, s.inflight, s.channel - 1, s.received + 1⟩

/-- States reachable during a driver run over `total` IPs with concurrency
`batchSize`. -/
def PoolReachable (total batchSize : Nat) (s : PoolState) : Prop :=
  Relation.ReflTransGen PoolStep (initPool total batchSize) s

end RustSpeedTest

namespace RustSpeedTest

example : trim_ascii_whitespace [97] = [] := by decide

example : trim_ascii_whitespace [32, 9] = [32, 9] := by decide

example : trim_ascii_whitespace [] = [] := by decide

example : trim_ascii_whitespace [32, 104, 105, 10] = [] := by decide

example :
    cfcdnCmp ⟨2, RouteStatus.NoLocation, ""⟩ ⟨1, RouteStatus.DiffLocation, "SJC"⟩
      = Ordering.lt := by decide

-- the repository test vectors: sorting the four records of the unit test
-- test_delay_sort yields exactly the order the test asserts
-- (delay3, delay4, delay2, delay1), with the zero-success record last
example :
    sortDelays [⟨1, 1000000000, 0⟩, ⟨2, 2000000000, 1⟩, ⟨3, 3000000000, 2⟩, ⟨4, 5000000000, 2⟩]
      = [⟨3, 3000000000, 2⟩, ⟨4, 5000000000, 2⟩, ⟨2, 2000000000, 1⟩, ⟨1, 1000000000, 0⟩] := by
  decide

example :
    (check_cloudflare_routes 1 [none, some "SJC", some "LAX"]).route_status
      = RouteStatus.DiffLocation := by decide

example :
    (check_cloudflare_routes 1 [none, none]).route_status
      = RouteStatus.NoLocation := by decide

example :
    check_cloudflare_routes 1 [some "SJC", none, some "SJC"]
      = ⟨1, RouteStatus.Normal, "SJC"⟩ := by decide

example : downloaderRun [[some ⟨1, 5, 9⟩]] 0 = [⟨1, 5, 9⟩] := by decide

example :
    downloaderRun [[none, some ⟨1, 5, 9⟩], [none], [some ⟨3, 7, 9⟩], [some ⟨4, 8, 9⟩]] 2
      = [⟨1, 5, 9⟩, ⟨3, 7, 9⟩] := by decide

example : containsSub "read: connection timed out" "timed out" = true := by decide

example : containsSub "connection reset" "timed out" = false := by decide

example :
    tcp_socket 7 [ConnAttempt.ok 100, ConnAttempt.err "Too Many Open Files (os error 24)"]
      = Except.error emfilePanicMsg := by decide

example :
    tcp_socket 7 [ConnAttempt.ok 100, ConnAttempt.err "refused", ConnAttempt.ok 200]
      = Except.ok ⟨7, 150, 2⟩ := by decide

example :
    handle_response true 9 1000 [ChunkResult.ok 10, ChunkResult.ok 20, ChunkResult.err "it timed out"]
      = Except.ok ⟨9, 30, 1000⟩ := by decide

example :
    handle_response true 9 1000 [ChunkResult.ok 10, ChunkResult.err "reset", ChunkResult.ok 5]
      = Except.error "reset" := by decide

/-! ## Helper lemmas -/

theorem insertHead_pairwise_z {lt : α → α → Bool} {Z : α → Prop}
    (hzf : ∀ a b, Z a → lt a b = false)
    (hzt : ∀ a b, ¬ Z a → Z b → lt a b = true) :
    ∀ (x : α) (l : List α), List.Pairwise (fun a b => Z a → Z b) l →
      List.Pairwise (fun a b => Z a → Z b) (insertHead lt x l) := by
  intro x l
  induction l with
  | nil => intro _; simp [insertHead]
  | cons h t ih =>
    intro hl
    rw [show insertHead lt x (h :: t)
          = if lt h x then h :: insertHead lt x t else x :: h :: t from rfl]
    by_cases hless : lt h x
    · rw [if_pos hless]
      refine List.Pairwise.cons ?_ (ih hl.of_cons)
      intro z _ hZh
      exact absurd (hzf h x hZh) (by simp [hless])
    · rw [if_neg hless]
      refine List.Pairwise.cons ?_ hl
      intro z hz hZx
      have hZh : Z h := by
        by_contra hZh
        exact hless (by simp [hzt h x hZh hZx])
      rcases List.mem_cons.1 hz with rfl | hz
      · exact hZh
      · exact List.rel_of_pairwise_cons hl hz hZh

theorem sortBy_pairwise_z {lt : α → α → Bool} {Z : α → Prop}
    (hzf : ∀ a b, Z a → lt a b = false)
    (hzt : ∀ a b, ¬ Z a → Z b → lt a b = true) :
    ∀ (l : List α), List.Pairwise (fun a b => Z a → Z b) (sortBy lt l) := by
  intro l
  induction l with
  | nil => simp [sortBy]
  | cons x l ih =>
    rw [show sortBy lt (x :: l) = insertHead lt x (sortBy lt l) from rfl]
    exact insertHead_pairwise_z hzf hzt x (sortBy lt l) ih

theorem delayLt_false_of_zero (a b : Delay) (h : a.success = 0) : delayLt a b = false := by
  simp only [delayLt, delayCmp, h, if_true, if_pos rfl]
  rfl

theorem delayLt_true_of_nonzero_zero (a b : Delay) (ha : ¬ a.success = 0) (hb : b.success = 0) :
    delayLt a b = true := by
  simp only [delayLt, delayCmp, ha, hb, if_false, if_neg ha, if_pos (Nat.pos_of_ne_zero ha)]
  rfl

/-! ## Claim theorems -/

/-- C1 (counterexample): on the records `{succ=1, mean=2s}`, `{succ=2,
mean=3s}`, `{succ=2, mean=5s}` (taken from the repository's own
`test_delay_sort` vectors) the sorted output is `[3s/2, 5s/2, 2s/1]`: the
records with stored means 3s and 5s precede the record with stored mean
2s, all with `successes ≥ 1`, so the claimed "mean RTT non-decreasing
among `successes ≥ 1` records" is false. -/
theorem delay_sort_claim_false :
    ¬ delaySortClaim
        [⟨2, 2000000000, 1⟩, ⟨3, 3000000000, 2⟩, ⟨4, 5000000000, 2⟩] := by
  intro h
  have h2 := h.2
  have hs : sortDelays [⟨2, 2000000000, 1⟩, ⟨3, 3000000000, 2⟩, ⟨4, 5000000000, 2⟩]
      = [⟨3, 3000000000, 2⟩, ⟨4, 5000000000, 2⟩, ⟨2, 2000000000, 1⟩] := by decide
  rw [hs] at h2
  have := List.rel_of_pairwise_cons h2
    (List.mem_cons_of_mem _ (List.mem_cons_self _ _))
  exact absurd (this (by decide) (by decide)) (by decide)

/-- C1 (amended): sorting by the `Delay` comparison places every record
with `successes = 0` after every record with `successes ≥ 1` (if a
`successes = 0` record precedes another record, that record also has
`successes = 0`). -/
theorem delay_sort_zero_success_last (l : List Delay) :
    List.Pairwise (fun a b => a.success = 0 → b.success = 0) (sortDelays l) :=
  sortBy_pairwise_z delayLt_false_of_zero delayLt_true_of_nonzero_zero l

/-- C2 (counterexample): for a `NoLocation` record compared with a
`DiffLocation` record the source comparison returns `Less`, not the
`Greater` the claim requires, and for two `Normal` records with unequal
IPs it returns `Less` in both directions, so ties are not broken by IP and
the relation is not a total order. -/
theorem cfcdn_cmp_claim_false :
    ¬ (cfcdnCmp ⟨2, RouteStatus.NoLocation, ""⟩ ⟨1, RouteStatus.DiffLocation, "SJC"⟩
          = Ordering.gt)
    ∧ ¬ (cfcdnCmp ⟨5, RouteStatus.Normal, "LAX"⟩ ⟨3, RouteStatus.Normal, "SJC"⟩
          = Ordering.gt)
    ∧ cfcdnCmp ⟨3, RouteStatus.Normal, "SJC"⟩ ⟨5, RouteStatus.Normal, "LAX"⟩
        = Ordering.lt := by
  refine ⟨by decide, by decide, by decide⟩

/-- C2 (amended): the comparison on route records returns `Less` whenever
the receiver's status is `NORMAL`, `Greater` when only the argument's
status is `NORMAL`, and `Less` for any two records neither of which is
`NORMAL` — regardless of the IPs; in particular a `DIFF_LOCATION` receiver
compares `Less` than a `NO_LOCATION` argument, but a `NO_LOCATION`
receiver also compares `Less` than a `DIFF_LOCATION` argument, so the
relation is not a total order and never consults the IP. -/
theorem cfcdn_cmp_characterization (a b : CFCDNCheckResult) :
    cfcdnCmp a b =
      if a.route_status = RouteStatus.Normal then Ordering.lt
      else if b.route_status = RouteStatus.Normal then Ordering.gt
      else Ordering.lt := by
  cases ha : a.route_status <;> cases hb : b.route_status <;>
    simp [cfcdnCmp, ha, hb]

/-- C6 (counterexample): a record whose mean delay in milliseconds equals
`avg_delay_lower` (5 ms with bounds lower 5, upper 10) is discarded by the
code, contradicting the claimed keep-interval `[avg_delay_lower,
avg_delay_upper]` that includes its lower endpoint. -/
theorem scanner_filter_claim_false :
    ¬ (((⟨1, 5000000, 1⟩ : Delay) ∈ scannerFilter 10 5 [⟨1, 5000000, 1⟩])
        ↔ (5 ≤ delayMillis ⟨1, 5000000, 1⟩ ∧ delayMillis ⟨1, 5000000, 1⟩ < 10)) := by
  decide

/-- C6 (amended): the latency filtering stage of `Scanner::run` keeps a
received record if and only if its mean delay in milliseconds is strictly
between the bounds: `avg_delay_lower < mean_ms < avg_delay_upper`, both
endpoints exclusive. -/
theorem scanner_filter_mem (u l : Nat) (ds : List Delay) (d : Delay) :
    d ∈ scannerFilter u l ds
      ↔ d ∈ ds ∧ (l < delayMillis d ∧ delayMillis d < u) := by
  simp only [scannerFilter, List.mem_filter, Bool.and_eq_true, decide_eq_true_eq]
  tauto

/-- C10 (code bug): `trim_ascii_whitespace` swaps the roles of
`rposition` and `position`, so the byte slice `"a"` (no whitespace at all,
which the claim and the repository's own `test_trim_ascii_whitespace` say
must come back unchanged) is mapped to the empty slice, while the nonempty
all-whitespace slice `" \t"` (which the claim says must become empty) is
returned whole. -/
theorem trim_ascii_whitespace_bug :
    trim_ascii_whitespace [97] = []
    ∧ trim_ascii_whitespace [32, 9] = [32, 9]
    ∧ trim_ascii_whitespace [32, 104, 101, 108, 108, 111, 10] = [] := by
  refine ⟨by decide, by decide, by decide⟩

theorem downloaderRunGo_eq (m : Nat) :
    ∀ (os : List (List AttemptResult)) (acc : List Speed) (cnt : Nat), cnt < m →
      downloaderRunGo m os acc cnt = acc ++ (os.filterMap firstOk).take (m - cnt) := by
  intro os
  induction os with
  | nil => intro acc cnt _; simp [downloaderRunGo]
  | cons o rest ih =>
    intro acc cnt hcnt
    rw [downloaderRunGo]
    cases hfo : firstOk o with
    | none =>
      rw [ih acc cnt hcnt]
      simp [List.filterMap_cons, hfo]
    | some s =>
      by_cases hge : m ≤ cnt + 1
      · have hm : m = cnt + 1 := Nat.le_antisymm hge hcnt
        simp only [hge, if_true]
        simp [List.filterMap_cons, hfo, hm, List.take_succ_cons, Nat.add_sub_cancel_left]
      · simp only [hge, if_false]
        rw [ih (acc ++ [s]) (cnt + 1) (Nat.lt_of_not_le hge)]
        have : m - cnt = (m - (cnt + 1)) + 1 := by omega
        simp [List.filterMap_cons, hfo, this, List.take_succ_cons]

/-- C4 (amended, for `min_available = m ≥ 1`): `Downloader::run` keeps
exactly the first successful measurement of each IP, in IP order, cut off
after the `m`-th success: the result equals the first-successes stream
truncated to `m` records.  In particular at most `m` records are returned
and only the smallest prefix of the IP list producing `m` successes is
attempted. -/
theorem downloader_run_spec (outcomes : List (List AttemptResult)) (m : Nat)
    (hm : 1 ≤ m) :
    downloaderRun outcomes m = (outcomes.filterMap firstOk).take m := by
  have h := downloaderRunGo_eq m outcomes [] 0 (Nat.lt_of_lt_of_le Nat.zero_lt_one hm)
  simpa [downloaderRun] using h

/-- C4 (witness): three successful IPs with `min_available = 2` give
exactly the first two success records. -/
theorem downloader_run_spec_witness :
    downloaderRun [[none, some ⟨1, 5, 9⟩], [none], [some ⟨3, 7, 9⟩], [some ⟨4, 8, 9⟩]] 2
      = [⟨1, 5, 9⟩, ⟨3, 7, 9⟩] := by
  rw [downloader_run_spec _ 2 (by decide)]
  decide

/-- C4 (counterexample): with `min_available = 0` the claim demands at most
zero successful records, but `Downloader::run` only tests the count after
pushing a success, so a succeeding IP yields one record. -/
theorem downloader_run_min_available_zero_false :
    ¬ ((downloaderRun [[some ⟨1, 5, 9⟩]] 0).length ≤ 0) := by
  decide

theorem tcpSocketGo_error (ip : IpAddr) :
    ∀ (attempts : List ConnAttempt) (total succ : Nat),
      (∃ m, ConnAttempt.err m ∈ attempts
          ∧ containsSub (lowerString m) "too many open files" = true) →
      tcpSocketGo ip attempts total succ = Except.error emfilePanicMsg := by
  intro attempts
  induction attempts with
  | nil =>
    rintro total succ ⟨m, hm, _⟩
    exact absurd hm (List.not_mem_nil _)
  | cons a rest ih =>
    rintro total succ ⟨m, hm, hc⟩
    cases a with
    | ok e =>
      rw [tcpSocketGo]
      apply ih
      rcases List.mem_cons.1 hm with h | h
      · exact absurd h (by simp)
      · exact ⟨m, h, hc⟩
    | err m2 =>
      rw [tcpSocketGo]
      by_cases hc2 : containsSub (lowerString m2) "too many open files" = true
      · rw [if_pos hc2]
      · rw [if_neg hc2]
        apply ih
        rcases List.mem_cons.1 hm with h | h
        · cases h; exact absurd hc hc2
        · exact ⟨m, h, hc⟩

/-- C8 (amended): if any TCP connect attempt fails with an error whose
lowercased message contains "too many open files", `Scanner::tcp_socket`
panics (no `Delay` record, successful or failed, is produced) with the
fixed diagnostic `emfilePanicMsg`, which advises reducing the batch size
but does not contain its configured numeric value. -/
theorem tcp_socket_emfile_aborts (ip : IpAddr) (attempts : List ConnAttempt)
    (h : ∃ m, ConnAttempt.err m ∈ attempts
        ∧ containsSub (lowerString m) "too many open files" = true) :
    tcp_socket ip attempts = Except.error emfilePanicMsg :=
  tcpSocketGo_error ip attempts 0 0 h

/-- C8 (witness): a concrete EMFILE-style error message aborts the probe. -/
theorem tcp_socket_emfile_aborts_witness :
    tcp_socket 7 [ConnAttempt.ok 100, ConnAttempt.err "Too many open files (os error 24)"]
      = Except.error emfilePanicMsg :=
  tcp_socket_emfile_aborts 7 _ ⟨"Too many open files (os error 24)", by decide, by decide⟩

/-- C8 (counterexample): the abort diagnostic is a fixed string that never
names the configured pool size: for the batch size 500 used by the
repository's own tests, "500" is not a substring of the panic message —
indeed the message contains no digit at all. -/
theorem tcp_socket_panic_message_no_size :
    tcp_socket 7 [ConnAttempt.err "Too many open files (os error 24)"]
      = Except.error emfilePanicMsg
    ∧ containsSub emfilePanicMsg "500" = false
    ∧ emfilePanicMsg.toList.all (fun c => ! c.isDigit) = true := by
  refine ⟨by decide, by decide, by decide⟩

theorem handleResponseGo_append (ip elapsed : Nat) :
    ∀ (pre l : List ChunkResult) (acc : Nat), (∀ c ∈ pre, ∃ n, c = ChunkResult.ok n) →
      handleResponseGo ip elapsed (pre ++ l) acc
        = handleResponseGo ip elapsed l (acc + chunkBytes pre) := by
  intro pre
  induction pre with
  | nil => intro l acc _; simp [chunkBytes]
  | cons c pre ih =>
    intro l acc hpre
    rcases hpre c (List.mem_cons_self _ _) with ⟨n, rfl⟩
    rw [List.cons_append, handleResponseGo, ih l (acc + n) (fun c hc => hpre c (List.mem_cons_of_mem _ hc))]
    rw [chunkBytes]
    ring_nf

/-- C7: while streaming a successful response, a chunk read error whose
message contains "timed out" makes `handle_response` stop reading and still
return a successful `Speed` record carrying the bytes counted so far and
the elapsed time, while a chunk read error with any other message makes
the attempt return an error and no record. -/
theorem handle_response_spec (ip elapsed : Nat) (pre : List ChunkResult)
    (msg : String) (rest : List ChunkResult)
    (hpre : ∀ c ∈ pre, ∃ n, c = ChunkResult.ok n) :
    (containsSub msg "timed out" = true →
      handle_response true ip elapsed (pre ++ ChunkResult.err msg :: rest)
        = Except.ok ⟨ip, chunkBytes pre, elapsed⟩)
    ∧ (containsSub msg "timed out" = false →
      handle_response true ip elapsed (pre ++ ChunkResult.err msg :: rest)
        = Except.error msg) := by
  constructor <;> intro hc <;>
    rw [show handle_response true ip elapsed (pre ++ ChunkResult.err msg :: rest)
          = handleResponseGo ip elapsed (pre ++ ChunkResult.err msg :: rest) 0 from rfl,
        handleResponseGo_append ip elapsed pre _ 0 hpre, handleResponseGo] <;>
    simp [hc]

/-- C7 (witness): 30 bytes arrive in two chunks before a read timeout; the
attempt succeeds with 30 bytes recorded.  A "reset" chunk error instead
fails the attempt. -/
theorem handle_response_spec_witness :
    handle_response true 9 1000
        [ChunkResult.ok 10, ChunkResult.ok 20, ChunkResult.err "it timed out"]
      = Except.ok ⟨9, 30, 1000⟩
    ∧ handle_response true 9 1000 [ChunkResult.ok 10, ChunkResult.err "reset"]
      = Except.error "reset" := by
  constructor
  · exact (handle_response_spec 9 1000 [ChunkResult.ok 10, ChunkResult.ok 20] "it timed out" []
      (by
        intro c hc
        rcases List.mem_cons.1 hc with rfl | hc
        · exact ⟨10, rfl⟩
        rcases List.mem_cons.1 hc with rfl | hc
        · exact ⟨20, rfl⟩
        exact absurd hc (List.not_mem_nil _))).1 (by decide)
  · exact (handle_response_spec 9 1000 [ChunkResult.ok 10] "reset" []
      (by
        intro c hc
        rcases List.mem_cons.1 hc with rfl | hc
        · exact ⟨10, rfl⟩
        exact absurd hc (List.not_mem_nil _))).2 (by decide)

theorem firstLocationCode_eq_empty_iff :
    ∀ (os : List (Option String)), (∀ s, some s ∈ os → s ≠ "") →
      ((firstLocationCode os).1 = "" ↔ ∀ o ∈ os, o = none) := by
  intro os
  induction os with
  | nil => intro _; simp [firstLocationCode]
  | cons o rest ih =>
    intro hne
    cases o with
    | none =>
      rw [show firstLocationCode (none :: rest) = firstLocationCode rest from rfl]
      rw [ih (fun s hs => hne s (List.mem_cons_of_mem _ hs))]
      simp
    | some c =>
      rw [show firstLocationCode (some c :: rest) = (c, rest) from rfl]
      have hc : c ≠ "" := hne c (List.mem_cons_self _ _)
      simp [hc]

theorem firstLocationCode_append :
    ∀ (pre : List (Option String)) (c : String) (rest : List (Option String)),
      (∀ o ∈ pre, o = none) →
      firstLocationCode (pre ++ some c :: rest) = (c, rest) := by
  intro pre
  induction pre with
  | nil => intro c rest _; rfl
  | cons o pre ih =>
    intro c rest hpre
    have ho : o = none := hpre o (List.mem_cons_self _ _)
    subst ho
    rw [List.cons_append,
      show firstLocationCode (none :: (pre ++ some c :: rest)) = firstLocationCode (pre ++ some c :: rest) from rfl]
    exact ih c rest (fun o ho => hpre o (List.mem_cons_of_mem _ ho))

theorem anyDifferentCode_eq_true_iff (c : String) :
    ∀ (rest : List (Option String)),
      (anyDifferentCode c rest = true ↔ ∃ s, some s ∈ rest ∧ s ≠ c) := by
  intro rest
  induction rest with
  | nil => simp [anyDifferentCode]
  | cons o rest ih =>
    cases o with
    | none =>
      rw [show anyDifferentCode c (none :: rest) = anyDifferentCode c rest from rfl, ih]
      constructor
      · rintro ⟨s, hs, hsc⟩
        exact ⟨s, List.mem_cons_of_mem _ hs, hsc⟩
      · rintro ⟨s, hs, hsc⟩
        rcases List.mem_cons.1 hs with h | h
        · exact absurd h (by simp)
        · exact ⟨s, h, hsc⟩
    | some s2 =>
      rw [show anyDifferentCode c (some s2 :: rest)
            = if s2 ≠ c then true else anyDifferentCode c rest from rfl]
      by_cases hs2 : s2 = c
      · rw [if_neg (by simpa using hs2), ih]
        constructor
        · rintro ⟨s, hs, hsc⟩
          exact ⟨s, List.mem_cons_of_mem _ hs, hsc⟩
        · rintro ⟨s, hs, hsc⟩
          rcases List.mem_cons.1 hs with h | h
          · rcases Option.some.inj h with rfl
            exact absurd hs2 hsc
          · exact ⟨s, h, hsc⟩
      · rw [if_pos (by simpa using hs2)]
        simp only [true_iff]
        exact ⟨s2, List.mem_cons_self _ _, hs2⟩

theorem check_cloudflare_routes_eq (ip : IpAddr) (outcomes : List (Option String))
    (c : String) (rest : List (Option String))
    (h : firstLocationCode outcomes = (c, rest)) :
    check_cloudflare_routes ip outcomes =
      if c = "" then ⟨ip, RouteStatus.NoLocation, ""⟩
      else if anyDifferentCode c rest then ⟨ip, RouteStatus.DiffLocation, c⟩
      else ⟨ip, RouteStatus.Normal, c⟩ := by
  simp only [check_cloudflare_routes, h]

/-- C3: over any per-try outcome list whose obtained codes are nonempty
(as `get_location_code` guarantees: a code is always the three final bytes
of a header line), the status is `NO_LOCATION` iff no try yields a code;
and when the first code `c` arrives after a prefix of failed tries, the
result keeps `c` as location code and is `DIFF_LOCATION` iff some later
try yields a code different from `c`, `NORMAL` iff every later code equals
`c`. -/
theorem check_cloudflare_routes_classification (ip : IpAddr)
    (outcomes : List (Option String)) (hne : ∀ s, some s ∈ outcomes → s ≠ "") :
    (((check_cloudflare_routes ip outcomes).route_status = RouteStatus.NoLocation)
        ↔ ∀ o ∈ outcomes, o = none)
    ∧ ∀ pre c rest, outcomes = pre ++ some c :: rest → (∀ o ∈ pre, o = none) →
        ((((check_cloudflare_routes ip outcomes).route_status = RouteStatus.DiffLocation)
            ↔ ∃ s, some s ∈ rest ∧ s ≠ c)
         ∧ (check_cloudflare_routes ip outcomes).location_code = c
         ∧ (((check_cloudflare_routes ip outcomes).route_status = RouteStatus.Normal)
            ↔ ∀ s, some s ∈ rest → s = c)) := by
  constructor
  · rw [← firstLocationCode_eq_empty_iff outcomes hne]
    rcases hp : firstLocationCode outcomes with ⟨c0, r0⟩
    rw [check_cloudflare_routes_eq ip outcomes c0 r0 hp]
    by_cases h : c0 = ""
    · simp [h]
    · by_cases hd : anyDifferentCode c0 r0 <;> simp [h, hd]
  · intro pre c rest heq hpre
    have hflc : firstLocationCode outcomes = (c, rest) := by
      rw [heq]; exact firstLocationCode_append pre c rest hpre
    have hcmem : some c ∈ outcomes := by
      rw [heq]; exact List.mem_append_right _ (List.mem_cons_self _ _)
    have hcne : c ≠ "" := hne c hcmem
    rw [check_cloudflare_routes_eq ip outcomes c rest hflc, if_neg hcne]
    by_cases hd : anyDifferentCode c rest
    · rw [if_pos hd]
      refine ⟨?_, rfl, ?_⟩
      · simp only [true_iff]
        exact (anyDifferentCode_eq_true_iff c rest).1 hd
      · rcases (anyDifferentCode_eq_true_iff c rest).1 hd with ⟨s, hs, hsc⟩
        simp only [show (RouteStatus.DiffLocation = RouteStatus.Normal) = False by simp,
          false_iff]
        intro hall
        exact hsc (hall s hs)
    · rw [if_neg hd]
      refine ⟨?_, rfl, ?_⟩
      · simp only [show (RouteStatus.Normal = RouteStatus.DiffLocation) = False by simp,
          false_iff]
        intro hex
        exact hd ((anyDifferentCode_eq_true_iff c rest).2 hex)
      · simp only [true_iff]
        intro s hs
        by_contra hsc
        exact hd ((anyDifferentCode_eq_true_iff c rest).2 ⟨s, hs, hsc⟩)

/-- C3 (witness): a failed try, then "SJC", then "LAX" classify as
`DIFF_LOCATION`; two failed tries classify as `NO_LOCATION`. -/
theorem check_cloudflare_routes_classification_witness :
    (check_cloudflare_routes 1 [none, some "SJC", some "LAX"]).route_status
      = RouteStatus.DiffLocation
    ∧ (check_cloudflare_routes 1 [none, none]).route_status = RouteStatus.NoLocation := by
  have hne1 : ∀ s, some s ∈ ([none, some "SJC", some "LAX"] : List (Option String)) → s ≠ "" := by
    intro s hs
    rcases List.mem_cons.1 hs with h | hs
    · exact absurd h (by simp)
    rcases List.mem_cons.1 hs with h | hs
    · rcases Option.some.inj h with rfl; decide
    rcases List.mem_cons.1 hs with h | hs
    · rcases Option.some.inj h with rfl; decide
    exact absurd hs (List.not_mem_nil _)
  have hne2 : ∀ s, some s ∈ ([none, none] : List (Option String)) → s ≠ "" := by
    intro s hs
    rcases List.mem_cons.1 hs with h | hs
    · exact absurd h (by simp)
    rcases List.mem_cons.1 hs with h | hs
    · exact absurd h (by simp)
    exact absurd hs (List.not_mem_nil _)
  constructor
  · exact ((check_cloudflare_routes_classification 1 _ hne1).2 [none] "SJC" [some "LAX"]
      rfl (by intro o ho; simpa using (List.mem_singleton.1 ho))).1.mpr
      ⟨"LAX", List.mem_singleton.2 rfl, by decide⟩
  · exact (check_cloudflare_routes_classification 1 _ hne2).1.mpr
      (by intro o ho; rcases List.mem_cons.1 ho with h | ho; exact h;
          rcases List.mem_cons.1 ho with h | ho; exact h;
          exact absurd ho (List.not_mem_nil _))

theorem map_getD_range_eq (l : List IpAddr) :
    (List.range l.length).map (fun i => l.getD i 0) = l := by
  apply List.ext_getElem
  · simp
  · intro i h1 h2
    simp only [List.getElem_map, List.getElem_range]
    exact List.getD_eq_getElem l 0 h2

/-- C5: with the sampled index list satisfying the documented contract of
`rand::seq::index::sample` (exactly `sampleSize` distinct indices below
the deduplicated count), `parse_addresses_from_opt` returns, for
`random_number = k > 0`, exactly `min k |S|` pairwise-distinct addresses
all belonging to the deduplicated set `S`, and for `k = 0` a permutation
of all of `S`. -/
theorem parse_addresses_from_opt_spec (uniq_ips : List IpAddr) (k : Nat)
    (idxs : List Nat) (huniq : uniq_ips.Nodup)
    (hlen : idxs.length = sampleSize k uniq_ips.length)
    (hmem : ∀ i ∈ idxs, i < uniq_ips.length) (hnod : idxs.Nodup) :
    (0 < k → (parse_addresses_from_opt uniq_ips idxs).length = min k uniq_ips.length)
    ∧ (parse_addresses_from_opt uniq_ips idxs).Nodup
    ∧ (∀ x ∈ parse_addresses_from_opt uniq_ips idxs, x ∈ uniq_ips)
    ∧ (k = 0 → (parse_addresses_from_opt uniq_ips idxs).Perm uniq_ips) := by
  refine ⟨?_, ?_, ?_, ?_⟩
  · intro hk
    rw [parse_addresses_from_opt, List.length_map, hlen, sampleSize, Nat.min_def]
    split_ifs <;> omega
  · rw [parse_addresses_from_opt]
    refine List.Nodup.map_on ?_ hnod
    intro i hi j hj hf
    have hi2 := hmem i hi
    have hj2 := hmem j hj
    rw [List.getD_eq_getElem uniq_ips 0 hi2, List.getD_eq_getElem uniq_ips 0 hj2] at hf
    exact (huniq.getElem_inj_iff).1 hf
  · intro x hx
    rw [parse_addresses_from_opt] at hx
    rcases List.mem_map.1 hx with ⟨i, hi, rfl⟩
    rw [List.getD_eq_getElem uniq_ips 0 (hmem i hi)]
    exact List.getElem_mem _
  · intro hk
    subst hk
    have hlen2 : idxs.length = uniq_ips.length := by
      rw [hlen, sampleSize, if_neg (by simp)]
    have hsub : idxs ⊆ List.range uniq_ips.length := by
      intro i hi
      exact List.mem_range.2 (hmem i hi)
    have hsp : idxs.Subperm (List.range uniq_ips.length) :=
      List.subperm_of_subset hnod hsub
    have hperm : idxs.Perm (List.range uniq_ips.length) :=
      hsp.perm_of_length_le (by rw [List.length_range, hlen2])
    have hmap := hperm.map (fun i => uniq_ips.getD i 0)
    rw [map_getD_range_eq uniq_ips] at hmap
    rw [parse_addresses_from_opt]
    exact hmap

/-- C5 (witness): three deduplicated addresses, `random_number = 2`, and
the sampled indices `[2, 0]` give exactly `min 2 3 = 2` distinct addresses
from the set. -/
theorem parse_addresses_from_opt_spec_witness :
    (parse_addresses_from_opt [10, 20, 30] [2, 0]).length = min 2 3
    ∧ (parse_addresses_from_opt [10, 20, 30] [2, 0]).Nodup := by
  have h := parse_addresses_from_opt_spec [10, 20, 30] 2 [2, 0]
    (by decide) (by decide) (by decide) (by decide)
  exact ⟨h.1 (by decide), h.2.1⟩

/-- C9: during any run of the shared bounded-concurrency driver loop
(`Scanner::run` / `CloudflareChecker::check_routes`), the number of
in-flight probes never exceeds the configured batch size: the initial burst
spawns `min total batch` probes and each received completion spawns at
most one replacement. -/
theorem pool_inflight_le_batch (total batchSize : Nat) (s : PoolState)
    (h : PoolReachable total batchSize s) : s.inflight ≤ batchSize := by
  have key : s.inflight + s.channel ≤ batchSize := by
    induction h with
    | refl => dsimp only [initPool]; omega
    | tail _ hstep ih =>
      cases hstep with
      | complete h2 => dsimp only at ih ⊢; omega
      | recvSpawn h2 h3 => dsimp only at ih ⊢; omega
      | recvNoSpawn h2 h3 => dsimp only at ih ⊢; omega
  omega

/-- C9 (witness): with 3 IPs and batch size 2 the state after the first
probe completion (one in flight, one result queued) respects the bound. -/
theorem pool_inflight_le_batch_witness :
    PoolState.inflight ⟨1, 1, 1, 0⟩ ≤ 2 :=
  pool_inflight_le_batch 3 2 ⟨1, 1, 1, 0⟩
    (Relation.ReflTransGen.single (PoolStep.complete (initPool 3 2) (by decide)))

end RustSpeedTest
